import Mathlib

set_option maxHeartbeats 1000000

/-!
Shallow embedding of the KDEpy FFTKDE evaluation pipeline
(src/KDEpy/FFTKDE.py).  Real (numpy float) arithmetic is modelled by
rationals, numpy arrays by lists, and raised exceptions by an explicit
error type.  Collaborators of the FFTKDE class that live outside the
source file (BaseKDE grid validation, KDEpy.binning.linear_binning,
KDEpy.utils.cartesian, scipy.signal.convolve, kernel objects) are
modelled from the specification and marked as such in their doc
comments.
-/

/-- Errors surfaced by the pipeline.  `invalidGrid` models the
InvalidGridError raised by grid validation, `invalidBandwidth` the
ValueError of FFTKDE.evaluate for a bad bandwidth literal, `footprint`
the AssertionError of the `dx * L < real_bw` assertion (the spec's
FootprintError), `badLinspaceNum` the ValueError numpy raises when
`np.linspace` receives a negative sample count, and `assertionFailed`
the AssertionError of the norm check in FFTKDE.__init__. -/
inductive KDEError where
  | invalidGrid
  | invalidBandwidth
  | footprint
  | badLinspaceNum
  | assertionFailed
  deriving DecidableEq

/-- Bandwidth specification stored on the instance: either a numeric
literal or a callable rule mapping the fitted data to a number. -/
inductive BwSpec where
  | lit (q : ℚ)
  | rule (f : List (List ℚ) → ℚ)

/-- Kernel collaborator, as consumed by FFTKDE.evaluate: finite-support
flag, support radius, practical support for unbounded kernels, and a
per-point evaluation function (point, bw, norm ↦ weight). -/
structure KernelCap where
  finite_support : Bool
  support : ℚ
  practical_support : ℚ → ℚ
  evalPt : List ℚ → ℚ → ℚ → ℚ

/-- Instance state relevant to evaluate: fitted data (row per point),
weights (one per point) and the bandwidth spec. -/
structure KDEState where
  data : List (List ℚ)
  weights : List ℚ
  bw : BwSpec

/-- Dimension d of the grid, i.e. `self.grid_points.shape[1]`. -/
def gridDim (grid : List (List ℚ)) : ℕ := (grid.headD []).length

/-- Column i of the grid matrix, i.e. `self.grid_points[:, i]`. -/
def colVals (grid : List (List ℚ)) (i : ℕ) : List ℚ :=
  grid.map fun r => r.getD i 0

/-- Unique values of grid column i, i.e. `np.unique`, keeping one copy
of each value. -/
def axisVals (grid : List (List ℚ)) (i : ℕ) : List ℚ :=
  (colVals grid i).dedup

/-- Number of unique grid points along axis i (line 145). -/
def numUnique (grid : List (List ℚ)) (i : ℕ) : ℕ :=
  (axisVals grid i).length

/-- Number of grid intervals along axis i: `num_grid_points - 1`
(line 150). -/
def numIntervals (grid : List (List ℚ)) (i : ℕ) : ℕ :=
  numUnique grid i - 1

/-- Minimum of grid column i, i.e. `np.min(self.grid_points, axis=0)`
(line 148). -/
def axisMinQ (grid : List (List ℚ)) (i : ℕ) : ℚ :=
  (colVals grid i).foldr min ((colVals grid i).headD 0)

/-- Maximum of grid column i, i.e. `np.max(self.grid_points, axis=0)`
(line 149). -/
def axisMaxQ (grid : List (List ℚ)) (i : ℕ) : ℚ :=
  (colVals grid i).foldr max ((colVals grid i).headD 0)

/-- Grid spacing along axis i: `dx = (max_grid - min_grid) /
num_intervals` (line 151).  Note that the division is unguarded; a
single-point axis gives a zero divisor. -/
def dxAxis (grid : List (List ℚ)) (i : ℕ) : ℚ :=
  (axisMaxQ grid i - axisMinQ grid i) / ((numIntervals grid i : ℚ))

/-- Modelled from the spec: KDEpy.utils.cartesian (not under src/),
the all-combinations matrix of the per-axis sequences with the last
axis varying fastest. -/
def cartesian : List (List ℚ) → List (List ℚ)
  | [] => [[]]
  | xs :: rest => xs.flatMap fun x => (cartesian rest).map fun r => x :: r

/-- Consecutive differences of a list. -/
def diffList (xs : List ℚ) : List ℚ :=
  List.zipWith (fun a b => b - a) xs xs.tail

/-- Modelled from the spec: an axis is acceptable when it is nonempty,
strictly increasing and equidistant (constant positive spacing). -/
def axisOk (xs : List ℚ) : Bool :=
  !xs.isEmpty &&
    ((diffList xs).all fun t =>
      decide (0 < t) && decide (t = (diffList xs).headD 1))

/-- Per-axis unique values of the grid, as a list of axes. -/
def gridAxes (grid : List (List ℚ)) : List (List ℚ) :=
  (List.range (gridDim grid)).map fun i => axisVals grid i

/-- Modelled from the spec: the grid validation performed by
BaseKDE.evaluate / GridBuilder (not under src/): the supplied grid must
be the cartesian product of its per-axis unique values and every axis
must be strictly increasing and equidistant. -/
def validGrid (grid : List (List ℚ)) : Bool :=
  decide (grid = cartesian (gridAxes grid)) && (gridAxes grid).all axisOk

/-- Hat (triangular) weight function used by multilinear interpolation. -/
def hatQ (t : ℚ) : ℚ := max 0 (1 - |t|)

/-- Modelled from the spec: KDEpy.binning.linear_binning (not under
src/): linear binning distributes each sample point's weight across the
nearest grid nodes via multilinear interpolation, producing one mass
value per grid node in grid-row order. -/
def linear_binning (data grid : List (List ℚ)) (weights : List ℚ) :
    List ℚ :=
  grid.map fun g =>
    (List.zipWith
      (fun p w =>
        w * ((List.range (gridDim grid)).map fun i =>
          hatQ ((p.getD i 0 - g.getD i 0) / dxAxis grid i)).prod)
      data weights).sum

/-- Real bandwidth (kernel real extent): `support * bw` for a
finite-support kernel, otherwise `practical_support(bw)`
(lines 154-157). -/
def realBw (kernel : KernelCap) (bw : ℚ) : ℚ :=
  if kernel.finite_support then kernel.support * bw
  else kernel.practical_support bw

/-- Per-axis footprint count: `L = np.minimum(np.floor(real_bw / dx),
num_intervals)` (line 160). -/
def Laxis (kernel : KernelCap) (bw : ℚ) (grid : List (List ℚ))
    (i : ℕ) : ℤ :=
  min (Rat.floor (realBw kernel bw / dxAxis grid i))
    ((numIntervals grid i : ℤ))

/-- The assertion of line 161: `(dx * L < real_bw).all()`. -/
def footprintCheck (kernel : KernelCap) (bw : ℚ)
    (grid : List (List ℚ)) : Bool :=
  (List.range (gridDim grid)).all fun i =>
    decide (dxAxis grid i * ((Laxis kernel bw grid i : ℤ) : ℚ) <
      realBw kernel bw)

/-- Check that every per-axis footprint count is nonnegative; a
negative count makes `np.linspace` receive a negative sample count and
raise (line 164). -/
def nonnegFootprint (kernel : KernelCap) (bw : ℚ)
    (grid : List (List ℚ)) : Bool :=
  (List.range (gridDim grid)).all fun i =>
    decide (0 ≤ Laxis kernel bw grid i)

/-- Embedding of `np.linspace(a, b, num)`. -/
def linspace (a b : ℚ) (num : ℕ) : List ℚ :=
  if num = 1 then [a]
  else (List.range num).map fun j : ℕ =>
    a + (j : ℚ) * ((b - a) / ((num : ℚ) - 1))

/-- Per-axis footprint grid:
`np.linspace(-dx * L, dx * L, int(L * 2 + 1))` (line 164). -/
def footprintAxis (dx : ℚ) (L : ℕ) : List ℚ :=
  linspace (-(dx * (L : ℚ))) (dx * (L : ℚ)) (2 * L + 1)

/-- Multi-indices of a row-major array of the given shape, last axis
varying fastest (the order used by numpy reshape). -/
def indices : List ℕ → List (List ℕ)
  | [] => [[]]
  | m :: rest => (List.range m).flatMap fun i =>
      (indices rest).map fun r => i :: r

/-- Row-major flat offset of a multi-index in an array of the given
shape. -/
def flatIndex : List ℕ → List ℕ → ℕ
  | _ :: s, i :: r => i * s.prod + flatIndex s r
  | _, _ => 0

/-- Center offset of a convolution kernel axis of k points: (k-1)/2. -/
def centerOffset (k : ℕ) : ℕ := (k - 1) / 2

/-- Source multi-index read by a centered same-size convolution when
producing output index t from kernel index j. -/
def srcIndex (t j kshape : List ℕ) : List ℤ :=
  List.zipWith
    (fun (p : ℕ × ℕ) (k : ℕ) =>
      (p.1 : ℤ) + ((centerOffset k : ℕ) : ℤ) - (p.2 : ℤ))
    (t.zip j) kshape

/-- Bounds check of a signed multi-index against a shape. -/
def inBoundsIdx (shape : List ℕ) (idx : List ℤ) : Bool :=
  (List.zipWith
    (fun (m : ℕ) (v : ℤ) => decide (0 ≤ v) && decide (v < (m : ℤ)))
    shape idx).all fun b => b

/-- Zero-padded read of a flattened row-major array at a signed
multi-index. -/
def massGet (shape : List ℕ) (mass : List ℚ) (idx : List ℤ) : ℚ :=
  if inBoundsIdx shape idx = true then
    mass.getD (flatIndex shape (idx.map Int.toNat)) 0
  else 0

/-- Modelled from the spec: `scipy.signal.convolve(data, kernel,
mode=same)` (scipy is not under src/): same-size discrete convolution
with centered alignment and zero padding, on row-major flattened
arrays. -/
def convolveSame (shape kshape : List ℕ) (mass kw : List ℚ) : List ℚ :=
  (indices shape).map fun t =>
    ((indices kshape).map fun j =>
      kw.getD (flatIndex kshape j) 0 *
        massGet shape mass (srcIndex t j kshape)).sum

/-- Bandwidth resolution of FFTKDE.evaluate (lines 131-136): a callable
is applied to the fitted data with its result used unvalidated; a
numeric literal must be positive, otherwise a ValueError is raised. -/
def resolveBw (spec : BwSpec) (data : List (List ℚ)) :
    Except KDEError ℚ :=
  match spec with
  | BwSpec.rule f => Except.ok (f data)
  | BwSpec.lit q =>
      if 0 < q then Except.ok q
      else Except.error KDEError.invalidBandwidth

/-- Steps 1-3 of FFTKDE.evaluate (lines 139-175) after grid validation
and bandwidth resolution: linear binning, footprint computation with
its assertion, kernel evaluation on the cartesian footprint grid, and
the same-size convolution. -/
def evaluateSteps (kernel : KernelCap) (norm bw : ℚ)
    (data : List (List ℚ)) (weights : List ℚ)
    (grid : List (List ℚ)) : Except KDEError (List ℚ) :=
  if footprintCheck kernel bw grid then
    if nonnegFootprint kernel bw grid then
      Except.ok (convolveSame
        ((List.range (gridDim grid)).map fun i => numUnique grid i)
        ((List.range (gridDim grid)).map fun i =>
          2 * (Laxis kernel bw grid i).toNat + 1)
        (linear_binning data grid weights)
        ((cartesian ((List.range (gridDim grid)).map fun i =>
            footprintAxis (dxAxis grid i)
              (Laxis kernel bw grid i).toNat)).map
          fun p => kernel.evalPt p bw norm))
    else Except.error KDEError.badLinspaceNum
  else Except.error KDEError.footprint

/-- FFTKDE.evaluate (lines 102-175) as a state transformer: grid
validation first (modelled from the spec, performed by
`super().evaluate` which is not under src/), then bandwidth resolution
(which mutates `self.bw` before any later failure can occur), then the
binning/footprint/convolution steps. -/
def evaluate (kernel : KernelCap) (norm : ℚ) (st : KDEState)
    (grid : List (List ℚ)) :
    KDEState × Except KDEError (List ℚ) :=
  if validGrid grid then
    match resolveBw st.bw st.data with
    | Except.error e => (st, Except.error e)
    | Except.ok bw =>
        ({ st with bw := BwSpec.lit bw },
          evaluateSteps kernel norm bw st.data st.weights grid)
  else (st, Except.error KDEError.invalidGrid)

/-- Modelled from the spec: BaseKDE.fit (not under src/) stores the
data and weights on the instance; when no weights are passed the
default is uniform, one unit weight per data point. -/
def fitState (bwspec : BwSpec) (data : List (List ℚ))
    (weights : Option (List ℚ)) : KDEState :=
  { data := data
    weights := weights.getD (data.map fun _ => (1 : ℚ))
    bw := bwspec }

/-- Argument passed as the norm parameter of FFTKDE.__init__: either a
number or some non-numeric value. -/
inductive NormArg where
  | num (q : ℚ)
  | nonNum

/-- FFTKDE.__init__ (lines 67-70) restricted to its handling of the
norm argument: the norm is stored, then
`assert isinstance(self.norm, numbers.Number) and self.norm > 0`
raises an AssertionError unless the norm is a positive number; on
success the stored norm is returned unchanged. -/
def initFFTKDE : NormArg → Except KDEError ℚ
  | NormArg.num q =>
      if 0 < q then Except.ok q
      else Except.error KDEError.assertionFailed
  | NormArg.nonNum => Except.error KDEError.assertionFailed

/-- True when an evaluation result is a density array rather than an
error. -/
def isOkE (e : Except KDEError (List ℚ)) : Bool :=
  match e with
  | Except.ok _ => true
  | Except.error _ => false

/-- Error component of an evaluation result, if any. -/
def errOf (e : Except KDEError (List ℚ)) : Option KDEError :=
  match e with
  | Except.error x => some x
  | Except.ok _ => none

/-- Literal value of a bandwidth spec, if it is a literal. -/
def bwLitValue : BwSpec → Option ℚ
  | BwSpec.lit q => some q
  | BwSpec.rule _ => none

/-- Concrete kernel instance used to exercise the pipeline on concrete
inputs: finite support of radius 1, constant unit weight. -/
def constKernel : KernelCap :=
  { finite_support := true
    support := 1
    practical_support := fun b => b
    evalPt := fun _ _ _ => 1 }

/-- Concrete 4-point equidistant 1-d grid spanning [-1, 1]. -/
def grid4 : List (List ℚ) := [[-1], [-1/3], [1/3], [1]]

/-- Modelled from the spec: the per-axis footprint count exactly as the
spec words it: real extent is support times bandwidth for a
finite-support kernel and the kernel's practical support otherwise, and
the count is the floor of real extent over spacing, clamped to the
interval count. -/
def footprintSpec (kernel : KernelCap) (bw : ℚ) (grid : List (List ℚ))
    (i : ℕ) : ℤ :=
  min (Rat.floor
      ((if kernel.finite_support then kernel.support * bw
        else kernel.practical_support bw) / dxAxis grid i))
    ((numIntervals grid i : ℤ))

/-- Density component of an evaluation result, if any. -/
def okOf (e : Except KDEError (List ℚ)) : Option (List ℚ) :=
  match e with
  | Except.ok y => some y
  | Except.error _ => none

theorem indices_length (s : List ℕ) : (indices s).length = s.prod := by
  induction s with
  | nil => rfl
  | cons m rest ih =>
    simp only [indices, List.length_flatMap, Function.comp_def, List.length_map,
      ih, List.map_const', List.length_range, List.sum_replicate, smul_eq_mul,
      List.prod_cons]

theorem cartesian_length (xss : List (List ℚ)) :
    (cartesian xss).length = (xss.map List.length).prod := by
  induction xss with
  | nil => rfl
  | cons xs rest ih =>
    simp only [cartesian, List.length_flatMap, Function.comp_def,
      List.length_map, ih, List.map_const', List.sum_replicate, smul_eq_mul,
      List.map_cons, List.prod_cons]

theorem range_flatMap_mul (m p : ℕ) :
    (List.range m).flatMap (fun i => (List.range p).map fun x => i * p + x) =
      List.range (m * p) := by
  induction m with
  | zero => simp
  | succ m ih =>
    rw [List.range_succ, List.flatMap_append, ih, Nat.succ_mul,
      List.range_add]
    simp

theorem indices_map_flatIndex (s : List ℕ) :
    (indices s).map (flatIndex s) = List.range s.prod := by
  induction s with
  | nil => rfl
  | cons m rest ih =>
    rw [indices, List.map_flatMap, List.prod_cons, ← range_flatMap_mul]
    refine congrArg _ (funext fun i => ?_)
    rw [List.map_map, ← ih, List.map_map]
    rfl

theorem map_getD_range (l : List ℚ) :
    (List.range l.length).map (fun k => l.getD k 0) = l := by
  induction l with
  | nil => rfl
  | cons a l ih =>
    rw [List.length_cons, List.range_succ_eq_map, List.map_cons, List.map_map]
    exact congrArg (a :: ·) ih

theorem srcIndex_delta (s : List ℕ) : ∀ t ∈ indices s,
    srcIndex t (List.replicate s.length 0) (s.map fun _ => 1) =
      t.map (Nat.cast : ℕ → ℤ) := by
  induction s with
  | nil =>
    intro t ht
    simp only [indices, List.mem_singleton] at ht
    subst ht
    rfl
  | cons m rest ih =>
    intro t ht
    rw [indices] at ht
    simp only [List.mem_flatMap, List.mem_map, List.mem_range] at ht
    obtain ⟨i, _, r, hr, rfl⟩ := ht
    rw [List.length_cons, List.replicate_succ, List.map_cons, List.map_cons]
    show ((i : ℤ) + ((centerOffset 1 : ℕ) : ℤ) - ((0 : ℕ) : ℤ)) ::
        srcIndex r (List.replicate rest.length 0) (rest.map fun _ => 1) =
      (i : ℤ) :: r.map (Nat.cast : ℕ → ℤ)
    rw [ih r hr]
    congr 1

theorem inBounds_of_mem (s : List ℕ) : ∀ t ∈ indices s,
    inBoundsIdx s (t.map (Nat.cast : ℕ → ℤ)) = true := by
  induction s with
  | nil =>
    intro t ht
    simp only [indices, List.mem_singleton] at ht
    subst ht
    rfl
  | cons m rest ih =>
    intro t ht
    rw [indices] at ht
    simp only [List.mem_flatMap, List.mem_map, List.mem_range] at ht
    obtain ⟨i, him, r, hr, rfl⟩ := ht
    have htail := ih r hr
    rw [inBoundsIdx] at htail ⊢
    rw [List.map_cons]
    show ((decide ((0 : ℤ) ≤ (i : ℤ)) && decide ((i : ℤ) < (m : ℤ))) ::
      List.zipWith (fun (mm : ℕ) (v : ℤ) =>
        decide (0 ≤ v) && decide (v < (mm : ℤ))) rest
          (r.map (Nat.cast : ℕ → ℤ))).all (fun b => b) = true
    rw [List.all_cons]
    rw [htail]
    simp [him, Int.natCast_nonneg]

theorem toNat_map_natCast (t : List ℕ) :
    (t.map (Nat.cast : ℕ → ℤ)).map Int.toNat = t := by
  rw [List.map_map]
  simp [Function.comp_def, Int.toNat_natCast]

theorem massGet_of_mem (s : List ℕ) (a : List ℚ) (t : List ℕ)
    (ht : t ∈ indices s) :
    massGet s a (t.map (Nat.cast : ℕ → ℤ)) = a.getD (flatIndex s t) 0 := by
  rw [massGet, if_pos (inBounds_of_mem s t ht), toNat_map_natCast]

theorem indices_ones (s : List ℕ) :
    indices (s.map fun _ => 1) = [List.replicate s.length 0] := by
  induction s with
  | nil => rfl
  | cons m rest ih =>
    rw [List.map_cons, indices, ih]
    rfl

theorem flatIndex_replicate_zero (s : List ℕ) (n : ℕ) :
    flatIndex s (List.replicate n 0) = 0 := by
  induction s generalizing n with
  | nil => rfl
  | cons m rest ih =>
    cases n with
    | zero => rfl
    | succ n =>
      rw [List.replicate_succ]
      show 0 * rest.prod + flatIndex rest (List.replicate n 0) = 0
      rw [ih]
      simp

theorem convolveSame_delta (shape : List ℕ) (a : List ℚ)
    (h : a.length = shape.prod) :
    convolveSame shape (shape.map fun _ => 1) a [1] = a := by
  rw [convolveSame, indices_ones]
  simp only [List.map_cons, List.map_nil, List.sum_cons, List.sum_nil,
    add_zero, flatIndex_replicate_zero]
  have hcongr : ∀ t ∈ indices shape,
      ([(1 : ℚ)].getD 0 0) *
        massGet shape a
          (srcIndex t (List.replicate shape.length 0)
            (shape.map fun _ => 1)) =
      a.getD (flatIndex shape t) 0 := by
    intro t ht
    rw [srcIndex_delta shape t ht, massGet_of_mem shape a t ht]
    simp
  rw [List.map_congr_left hcongr]
  have hmm : (indices shape).map (fun t => a.getD (flatIndex shape t) 0) =
      ((indices shape).map (flatIndex shape)).map (fun k => a.getD k 0) := by
    rw [List.map_map]
    rfl
  rw [hmm, indices_map_flatIndex, ← h, map_getD_range]

theorem footprintAxis_eq (dx : ℚ) (L : ℕ) :
    footprintAxis dx L =
      (List.range (2 * L + 1)).map fun j : ℕ =>
        -(dx * (L : ℚ)) + (j : ℚ) * dx := by
  cases L with
  | zero => simp [footprintAxis, linspace, List.range_succ]
  | succ n =>
    rw [footprintAxis, linspace, if_neg (by omega)]
    apply List.map_congr_left
    intro j _
    have hM : ((n : ℚ) + 1) ≠ 0 := by positivity
    have hc : (((2 * (n + 1) + 1 : ℕ) : ℚ) - 1) = 2 * ((n : ℚ) + 1) := by
      push_cast
      ring
    rw [hc]
    have hq : (dx * ((n + 1 : ℕ) : ℚ) - -(dx * ((n + 1 : ℕ) : ℚ))) /
        (2 * ((n : ℚ) + 1)) = dx := by
      push_cast
      field_simp
      ring
    rw [hq]

theorem getD_map_range (f : ℕ → ℚ) (n j : ℕ) (h : j < n) :
    ((List.range n).map f).getD j 0 = f j := by
  rw [List.getD_eq_getElem?_getD, List.getElem?_map, List.getElem?_range h]
  rfl

theorem convolveSame_length (shape kshape : List ℕ) (mass kw : List ℚ) :
    (convolveSame shape kshape mass kw).length = shape.prod := by
  rw [convolveSame, List.length_map, indices_length]

theorem evaluateSteps_ok (kernel : KernelCap) (norm bw : ℚ)
    (data : List (List ℚ)) (weights : List ℚ) (grid : List (List ℚ))
    (out : List ℚ)
    (h : evaluateSteps kernel norm bw data weights grid = Except.ok out) :
    footprintCheck kernel bw grid = true ∧
    out = convolveSame
      ((List.range (gridDim grid)).map fun i => numUnique grid i)
      ((List.range (gridDim grid)).map fun i =>
        2 * (Laxis kernel bw grid i).toNat + 1)
      (linear_binning data grid weights)
      ((cartesian ((List.range (gridDim grid)).map fun i =>
          footprintAxis (dxAxis grid i)
            (Laxis kernel bw grid i).toNat)).map
        fun p => kernel.evalPt p bw norm) := by
  rw [evaluateSteps] at h
  by_cases h1 : footprintCheck kernel bw grid = true
  · rw [if_pos h1] at h
    by_cases h2 : nonnegFootprint kernel bw grid = true
    · rw [if_pos h2] at h
      injection h with h
      exact ⟨h1, h.symm⟩
    · rw [if_neg h2] at h
      cases h
  · rw [if_neg h1] at h
    cases h

theorem evaluateSteps_of_checkFail (kernel : KernelCap) (norm bw : ℚ)
    (data : List (List ℚ)) (weights : List ℚ) (grid : List (List ℚ))
    (h : footprintCheck kernel bw grid = false) :
    evaluateSteps kernel norm bw data weights grid =
      Except.error KDEError.footprint := by
  rw [evaluateSteps, if_neg]
  rw [h]
  exact Bool.false_ne_true

theorem evaluateSteps_ne_invalidBandwidth (kernel : KernelCap)
    (norm bw : ℚ) (data : List (List ℚ)) (weights : List ℚ)
    (grid : List (List ℚ)) :
    evaluateSteps kernel norm bw data weights grid ≠
      Except.error KDEError.invalidBandwidth := by
  rw [evaluateSteps]
  by_cases h1 : footprintCheck kernel bw grid = true
  · rw [if_pos h1]
    by_cases h2 : nonnegFootprint kernel bw grid = true
    · rw [if_pos h2]
      intro hc
      cases hc
    · rw [if_neg h2]
      intro hc
      injection hc with hc
      cases hc
  · rw [if_neg h1]
    intro hc
    injection hc with hc
    cases hc

theorem footprintCheck_spec (kernel : KernelCap) (bw : ℚ)
    (grid : List (List ℚ)) (h : footprintCheck kernel bw grid = true) :
    ∀ i, i < gridDim grid →
      dxAxis grid i * ((Laxis kernel bw grid i : ℤ) : ℚ) <
        realBw kernel bw := by
  intro i hi
  rw [footprintCheck, List.all_eq_true] at h
  have := h i (List.mem_range.mpr hi)
  exact of_decide_eq_true this

/-- C3: for every axis i the footprint count computed by evaluate equals
min(floor(real_extent / dx_i), num_intervals_i), where real_extent is
kernel.support * bw for a finite-support kernel and
kernel.practical_support(bw) otherwise; the code's `Laxis` (line 160)
coincides exactly with the spec-side formula `footprintSpec`. -/
theorem c3_footprint_formula (kernel : KernelCap) (bw : ℚ)
    (grid : List (List ℚ)) (i : ℕ) :
    Laxis kernel bw grid i = footprintSpec kernel bw grid i := rfl

/-- C6: evaluating on the explicit non-equidistant grid [0, 1, 3, 4]
fails with InvalidGridError for every kernel, norm and instance state:
no binning, kernel evaluation or convolution input influences the
result, and the state is returned unchanged. -/
theorem c6_nonequidistant_grid (kernel : KernelCap) (norm : ℚ)
    (st : KDEState) :
    evaluate kernel norm st [[(0 : ℚ)], [1], [3], [4]] =
      (st, Except.error KDEError.invalidGrid) := by
  rw [evaluate, if_neg]
  rw [show validGrid [[(0 : ℚ)], [1], [3], [4]] = false from by decide!]
  exact Bool.false_ne_true

/-- C8: fitting with an explicit vector of unit weights (one per data
point) and evaluating gives a result identical to fitting the same data
with no weights and evaluating on the same grid, for every kernel,
norm, bandwidth spec, data set and grid. -/
theorem c8_unit_weights (kernel : KernelCap) (norm : ℚ)
    (bwspec : BwSpec) (data : List (List ℚ)) (grid : List (List ℚ)) :
    evaluate kernel norm
        (fitState bwspec data (some (data.map fun _ => (1 : ℚ)))) grid =
      evaluate kernel norm (fitState bwspec data none) grid := rfl

/-- C9: constructing FFTKDE with a norm that is not a positive number
fails with an assertion error, and for every positive numeric norm the
construction succeeds and stores that norm unchanged. -/
theorem c9_norm_validation :
    (∀ q : ℚ, 0 < q → initFFTKDE (NormArg.num q) = Except.ok q) ∧
    (∀ q : ℚ, ¬ 0 < q →
      initFFTKDE (NormArg.num q) =
        Except.error KDEError.assertionFailed) ∧
    initFFTKDE NormArg.nonNum = Except.error KDEError.assertionFailed := by
  refine ⟨fun q hq => ?_, fun q hq => ?_, rfl⟩
  · show (if 0 < q then Except.ok q
      else Except.error KDEError.assertionFailed) = Except.ok q
    rw [if_pos hq]
  · show (if 0 < q then Except.ok q
      else Except.error KDEError.assertionFailed) =
      Except.error KDEError.assertionFailed
    rw [if_neg hq]

/-- C9 witness: the theorem applied at the concrete norm 2. -/
theorem c9_norm_validation_witness :
    (0 : ℚ) < 2 ∧ initFFTKDE (NormArg.num 2) = Except.ok 2 :=
  ⟨by decide!, c9_norm_validation.1 2 (by decide!)⟩

/-- C10: when an axis of the grid has exactly one unique point, the
interval count of that axis is zero, so the spacing computation divides
the axis extent by zero with no guard; grid validation accepts such a
grid (e.g. the one-point grid [[5]]), raising no error at that point. -/
theorem c10_single_point_axis (grid : List (List ℚ)) (i : ℕ)
    (h : numUnique grid i = 1) :
    numIntervals grid i = 0 ∧
    ((numIntervals grid i : ℕ) : ℚ) = 0 ∧
    dxAxis grid i = (axisMaxQ grid i - axisMinQ grid i) / 0 ∧
    validGrid [[(5 : ℚ)]] = true ∧ numUnique [[(5 : ℚ)]] 0 = 1 := by
  have h0 : numIntervals grid i = 0 := by
    rw [numIntervals, h]
  refine ⟨h0, ?_, ?_, by decide!, by decide!⟩
  · rw [h0]
    norm_num
  · rw [dxAxis, h0]
    norm_num

/-- C10 witness: the theorem applied to the one-point grid [[5]]. -/
theorem c10_single_point_axis_witness :
    numUnique [[(5 : ℚ)]] 0 = 1 ∧ numIntervals [[(5 : ℚ)]] 0 = 0 :=
  ⟨by decide!, (c10_single_point_axis [[(5 : ℚ)]] 0 (by decide!)).1⟩

theorem okOf_eq_some (e : Except KDEError (List ℚ)) (y : List ℚ)
    (h : okOf e = some y) : e = Except.ok y := by
  cases e with
  | ok z =>
    injection h with h
    rw [h]
  | error x => cases h

/-- C1 (amended): the footprint assertion dx_i * L_i < real_extent is
enforced: whenever evaluate's steps succeed the inequality holds on
every axis, and when the check fails on some axis the steps fail with
the assertion error (the spec's FootprintError).  However, clamping L_i
to num_intervals_i never itself violates the inequality, so a real
extent exceeding the grid's half-extent is silently truncated rather
than raising an error; the error occurs only when real_extent is an
exact multiple of dx_i with quotient at most num_intervals_i. -/
theorem c1_footprint_invariant (kernel : KernelCap) (norm bw : ℚ)
    (data : List (List ℚ)) (weights : List ℚ) (grid : List (List ℚ)) :
    (isOkE (evaluateSteps kernel norm bw data weights grid) = true →
      ∀ i, i < gridDim grid →
        dxAxis grid i * ((Laxis kernel bw grid i : ℤ) : ℚ) <
          realBw kernel bw) ∧
    (footprintCheck kernel bw grid = false →
      evaluateSteps kernel norm bw data weights grid =
        Except.error KDEError.footprint) := by
  constructor
  · intro hok
    cases hE : evaluateSteps kernel norm bw data weights grid with
    | ok out =>
      exact footprintCheck_spec kernel bw grid
        (evaluateSteps_ok kernel norm bw data weights grid out hE).1
    | error e =>
      rw [hE] at hok
      simp [isOkE] at hok
  · exact evaluateSteps_of_checkFail kernel norm bw data weights grid

/-- C1 witness: the theorem applied to a successful concrete run (grid
[0, 1], bandwidth 1/2, unit-support kernel). -/
theorem c1_footprint_invariant_witness :
    isOkE (evaluateSteps constKernel 2 (1/2) [] [] [[(0 : ℚ)], [1]]) =
      true ∧
    dxAxis [[(0 : ℚ)], [1]] 0 *
        ((Laxis constKernel (1/2) [[(0 : ℚ)], [1]] 0 : ℤ) : ℚ) <
      realBw constKernel (1/2) :=
  ⟨by decide!,
    (c1_footprint_invariant constKernel 2 (1/2) [] []
      [[(0 : ℚ)], [1]]).1 (by decide!) 0 (by decide!)⟩

/-- C1 counterexample: on the 4-point grid spanning [-1, 1] with a
finite-support kernel of support 1 and bandwidth 4, the real extent 4
exceeds the grid's half-extent 1 and the footprint is clamped to
num_intervals = 3, yet evaluate succeeds: no FootprintError is raised,
the oversized kernel is silently truncated. -/
theorem c1_counterexample :
    (1 : ℚ) < realBw constKernel 4 ∧
    Laxis constKernel 4 grid4 0 = ((numIntervals grid4 0 : ℕ) : ℤ) ∧
    isOkE (evaluate constKernel 2
      { data := [[0]], weights := [1], bw := BwSpec.lit 4 } grid4).2 =
      true :=
  ⟨by decide!, by decide!, by decide!⟩

/-- C2 (amended): evaluate raises InvalidBandwidthError exactly when
the grid is valid and the stored bandwidth spec is a numeric literal
that is not positive; the output of a callable bandwidth rule is used
unvalidated and never triggers InvalidBandwidthError. -/
theorem c2_bandwidth_amended (kernel : KernelCap) (norm : ℚ)
    (st : KDEState) (grid : List (List ℚ)) :
    (evaluate kernel norm st grid).2 =
        Except.error KDEError.invalidBandwidth ↔
      (validGrid grid = true ∧
        ∃ q, st.bw = BwSpec.lit q ∧ ¬ 0 < q) := by
  rw [evaluate]
  by_cases hv : validGrid grid = true
  · rw [if_pos hv]
    cases hbw : st.bw with
    | rule f =>
      rw [resolveBw]
      constructor
      · intro hc
        exact absurd hc
          (evaluateSteps_ne_invalidBandwidth kernel norm (f st.data)
            st.data st.weights grid)
      · rintro ⟨-, q, hq, -⟩
        cases hq
    | lit q =>
      rw [resolveBw]
      by_cases hq : 0 < q
      · rw [if_pos hq]
        constructor
        · intro hc
          exact absurd hc
            (evaluateSteps_ne_invalidBandwidth kernel norm q
              st.data st.weights grid)
        · rintro ⟨-, q2, hq2, hneg⟩
          injection hq2 with hq2
          rw [hq2] at hq
          exact absurd hq hneg
      · rw [if_neg hq]
        constructor
        · intro _
          exact ⟨hv, q, rfl, hq⟩
        · intro _
          rfl
  · rw [if_neg hv]
    constructor
    · intro hc
      injection hc with hc
      cases hc
    · rintro ⟨hg, -⟩
      exact absurd hg hv

/-- C2 counterexample: a bandwidth rule returning -1 resolves to the
non-positive scalar -1 without any error, and the subsequent failure of
evaluate is the negative-footprint ValueError, not
InvalidBandwidthError: a rule output that is non-positive does not fail
with InvalidBandwidthError. -/
theorem c2_counterexample :
    resolveBw (BwSpec.rule fun _ => (-1 : ℚ)) [[0]] = Except.ok (-1) ∧
    ¬ (0 : ℚ) < -1 ∧
    errOf (evaluate constKernel 2
      { data := [[0]], weights := [1], bw := BwSpec.rule fun _ => (-1 : ℚ) }
      grid4).2 = some KDEError.badLinspaceNum :=
  ⟨rfl, by decide!, by decide!⟩

/-- C4: on a valid grid, a successful evaluation returns one density
value per grid node: its length is the product of the per-axis unique
point counts and equals the grid's row count; the modelled same-size
convolution always returns an array of the input shape, and convolving
with the one-point identity kernel returns the binned mass unchanged,
exhibiting the centered index alignment that keeps the output ordering
equal to the grid-point ordering. -/
theorem c4_output_shape_order (kernel : KernelCap) (norm bw : ℚ)
    (data : List (List ℚ)) (weights : List ℚ) (grid : List (List ℚ))
    (out : List ℚ) (hg : validGrid grid = true)
    (h : okOf (evaluateSteps kernel norm bw data weights grid) =
      some out) :
    out.length =
      ((List.range (gridDim grid)).map fun i => numUnique grid i).prod ∧
    out.length = grid.length ∧
    (∀ (shape kshape : List ℕ) (a w : List ℚ),
      (convolveSame shape kshape a w).length = shape.prod) ∧
    (∀ (shape : List ℕ) (a : List ℚ), a.length = shape.prod →
      convolveSame shape (shape.map fun _ => 1) a [1] = a) := by
  obtain ⟨-, hout⟩ := evaluateSteps_ok kernel norm bw data weights grid
    out (okOf_eq_some _ out h)
  have hlen : out.length =
      ((List.range (gridDim grid)).map fun i => numUnique grid i).prod := by
    rw [hout, convolveSame_length]
  refine ⟨hlen, ?_,
    fun shape kshape a w => convolveSame_length shape kshape a w,
    fun shape a ha => convolveSame_delta shape a ha⟩
  rw [hlen]
  rw [validGrid, Bool.and_eq_true] at hg
  have hcart := congrArg List.length (of_decide_eq_true hg.1)
  rw [cartesian_length] at hcart
  rw [hcart, gridAxes, List.map_map]
  rfl

/-- C4 witness: the theorem applied to a successful concrete run on the
valid 2-point grid [0, 1], whose output [0, 0] has one value per grid
node. -/
theorem c4_output_shape_order_witness :
    validGrid [[(0 : ℚ)], [1]] = true ∧
    okOf (evaluateSteps constKernel 2 (1/2) [] [] [[(0 : ℚ)], [1]]) =
      some [0, 0] ∧
    ([(0 : ℚ), 0] : List ℚ).length =
      ([[(0 : ℚ)], [1]] : List (List ℚ)).length :=
  ⟨by decide!, by decide!,
    (c4_output_shape_order constKernel 2 (1/2) [] [] [[(0 : ℚ)], [1]]
      [0, 0] (by decide!) (by decide!)).2.1⟩

/-- C5: each per-axis footprint grid np.linspace(-dx L, dx L, 2L+1) has
exactly 2L+1 points, is symmetric about zero and has constant spacing
dx, and the kernel is evaluated in one call over the cartesian product
of the footprint axes, yielding a weight vector whose length is the
product of the per-axis point counts. -/
theorem c5_kernel_footprint_grid (dx : ℚ) (L : ℕ) (j : ℕ) :
    (footprintAxis dx L).length = 2 * L + 1 ∧
    (j ≤ 2 * L →
      (footprintAxis dx L).getD j 0 +
        (footprintAxis dx L).getD (2 * L - j) 0 = 0) ∧
    (j + 1 ≤ 2 * L →
      (footprintAxis dx L).getD (j + 1) 0 -
        (footprintAxis dx L).getD j 0 = dx) ∧
    (∀ (kernel : KernelCap) (bw norm : ℚ) (axes : List (List ℚ)),
      ((cartesian axes).map fun p => kernel.evalPt p bw norm).length =
        (axes.map List.length).prod) := by
  refine ⟨?_, ?_, ?_, ?_⟩
  · rw [footprintAxis_eq, List.length_map, List.length_range]
  · intro hj
    rw [footprintAxis_eq, getD_map_range _ _ _ (by omega),
      getD_map_range _ _ _ (by omega), Nat.cast_sub hj]
    push_cast
    ring
  · intro hj
    rw [footprintAxis_eq, getD_map_range _ _ _ (by omega),
      getD_map_range _ _ _ (by omega)]
    push_cast
    ring
  · intro kernel bw norm axes
    rw [List.length_map, cartesian_length]

/-- C5 witness: the theorem applied at dx = 1, L = 1: the 3-point axis
[-1, 0, 1] is symmetric and has spacing 1. -/
theorem c5_kernel_footprint_grid_witness :
    (footprintAxis 1 1).getD 0 0 + (footprintAxis 1 1).getD 2 0 = 0 ∧
    (footprintAxis 1 1).getD 1 0 - (footprintAxis 1 1).getD 0 0 = 1 :=
  ⟨(c5_kernel_footprint_grid 1 1 0).2.1 (by decide!),
    (c5_kernel_footprint_grid 1 1 0).2.2.1 (by decide!)⟩

/-- C7 (amended): evaluate leaves the fitted data and weights
unchanged; either the state is returned entirely unchanged (grid
validation or literal validation failed) or the bandwidth spec is
replaced by the literal holding the resolved scalar - which, on the
rule path, is stored unvalidated and may be non-positive.  Once the
spec is a literal, later calls never invoke a bandwidth rule. -/
theorem c7_frame_amended (kernel : KernelCap) (norm : ℚ)
    (st : KDEState) (grid : List (List ℚ)) :
    (evaluate kernel norm st grid).1.data = st.data ∧
    (evaluate kernel norm st grid).1.weights = st.weights ∧
    ((evaluate kernel norm st grid).1 = st ∨
      ∃ q, resolveBw st.bw st.data = Except.ok q ∧
        (evaluate kernel norm st grid).1.bw = BwSpec.lit q) := by
  rw [evaluate]
  by_cases hv : validGrid grid = true
  · rw [if_pos hv]
    cases hr : resolveBw st.bw st.data with
    | error e => exact ⟨rfl, rfl, Or.inl rfl⟩
    | ok q => exact ⟨rfl, rfl, Or.inr ⟨q, rfl, rfl⟩⟩
  · rw [if_neg hv]
    exact ⟨rfl, rfl, Or.inl rfl⟩

/-- C7 counterexample: a call with a bandwidth rule returning -1
replaces the stored bandwidth spec by the literal -1, which is not a
positive scalar: the claim that the bw attribute is replaced by the
resolved positive scalar fails on the rule path. -/
theorem c7_counterexample :
    bwLitValue (evaluate constKernel 2
      { data := [[0]], weights := [1], bw := BwSpec.rule fun _ => (-1 : ℚ) }
      grid4).1.bw = some (-1) ∧
    ¬ (0 : ℚ) < -1 :=
  ⟨by decide!, by decide!⟩

/-- C2 witness: the amended theorem applied at a concrete state whose
bandwidth literal -2 is non-positive, on a valid grid, yielding
InvalidBandwidthError. -/
theorem c2_bandwidth_amended_witness :
    (evaluate constKernel 2
      { data := [[0]], weights := [1], bw := BwSpec.lit (-2) }
      grid4).2 = Except.error KDEError.invalidBandwidth :=
  (c2_bandwidth_amended constKernel 2
    { data := [[0]], weights := [1], bw := BwSpec.lit (-2) } grid4).mpr
    ⟨by decide!, -2, rfl, by decide!⟩
